import Mathlib

/-!
Shallow embedding of the agent-orchestration core of
`src/backend/main.py` (arXiv Research Term Explainer):

* `runLoop` / `run_agent_loop` embeds `MCPClient._run_agent_loop`:
  the bounded loop that alternates model calls and MCP tool calls,
  yielding a sequence of events.
* `explainStreaming` embeds `MCPClient.explain_research_term_streaming`:
  the adapter that checks session readiness, fetches tool specs,
  converts them to the model-client format, drives the loop, and
  appends the terminal frame (`done` on normal completion, `error`
  when an exception escapes).
* `start_mcp_server` / `stop_mcp_server` embed the session lifecycle
  of `MCPClient`.

External collaborators (the Anthropic model client and the MCP
session) are modelled as oracles: pure functions that may fail,
packaged in the `Oracle` structure.  Python exceptions are modelled
with `Except String`; events yielded by a generator before an
exception is raised are retained, matching Python generator
semantics.
-/

deriving instance DecidableEq for Except

namespace ArxivExplainer

/-- A tool spec as returned by `session.list_tools()`:
`tool.name`, `tool.description`, `tool.inputSchema`.
The JSON schema is kept opaque as a string. -/
structure ToolSpec where
  name : String
  description : String
  inputSchema : String
deriving DecidableEq

/-- A tool declaration in the Claude API format built at
`main.py` lines 211-217. -/
structure ClaudeTool where
  name : String
  description : String
  input_schema : String
deriving DecidableEq

/-- A content block of a model response (`response.content`):
either a `text` block or a `tool_use` block
(`content_block.type` dispatch at lines 124-140). -/
inductive RespBlock where
  | text (t : String)
  | toolUse (id name input : String)
deriving DecidableEq

/-- One element of `mcp_result.content`; `text = some t` models an
element for which `hasattr(content, 'text')` holds with `content.text = t`. -/
structure MCPContent where
  text : Option String
deriving DecidableEq

/-- Message roles used by the loop. -/
inductive Role where
  | user
  | assistant
deriving DecidableEq

/-- A content block stored in the conversation history: the assistant
blocks (text / tool_use) plus the `tool_result` dictionaries built at
lines 172-176. -/
inductive ContentBlock where
  | text (t : String)
  | toolUse (id name input : String)
  | toolResult (tool_use_id content : String)
deriving DecidableEq

/-- A message of the conversation (`messages` list). -/
structure Message where
  role : Role
  content : List ContentBlock
deriving DecidableEq

/-- An event yielded to the stream: the dictionaries yielded by
`_run_agent_loop` (text / tool_use / tool_result) and by
`explain_research_term_streaming` (error / done). -/
inductive AgentEvent where
  | textEv (content : String)
  | toolUseEv (tool_name tool_input : String)
  | toolResultEv (tool_name content : String)
  | errorEv (content : String)
  | doneEv
deriving DecidableEq

/-- A recorded `tool_use` block (`tool_uses.append(content_block)`),
keeping the fields the loop reads: `.id`, `.name`, `.input`. -/
structure ToolUseRec where
  id : String
  name : String
  input : String
deriving DecidableEq

/-- The external collaborators of the loop, as oracles:
`complete` is `anthropic_client.messages.create` (tools and messages
arguments; model name and max_tokens are fixed configuration),
`callTool` is `session.call_tool`, `listTools` is `session.list_tools()`.
`Except.error` models a raised exception. -/
structure Oracle where
  complete : List ClaudeTool → List Message → Except String (List RespBlock)
  callTool : String → String → Except String (List MCPContent)
  listTools : Except String (List ToolSpec)

/-- Walk of `response.content` (lines 124-140): yields a `text` or
`tool_use` event per block, accumulates `assistant_content`, and
records tool uses, all in response order.  Returns
(events, assistant_content, tool_uses). -/
def processResponse : List RespBlock → List AgentEvent × List ContentBlock × List ToolUseRec
  | [] => ([], [], [])
  | RespBlock.text t :: rest =>
    let r := processResponse rest
    (AgentEvent.textEv t :: r.1, ContentBlock.text t :: r.2.1, r.2.2)
  | RespBlock.toolUse i n inp :: rest =>
    let r := processResponse rest
    (AgentEvent.toolUseEv n inp :: r.1,
     ContentBlock.toolUse i n inp :: r.2.1,
     ToolUseRec.mk i n inp :: r.2.2)

/-- The events yielded while walking one model response. -/
def respEvents (resp : List RespBlock) : List AgentEvent :=
  (processResponse resp).1

/-- The `assistant_content` accumulated from one model response. -/
def assistantContent (resp : List RespBlock) : List ContentBlock :=
  (processResponse resp).2.1

/-- The `tool_uses` recorded from one model response. -/
def toolUsesOf (resp : List RespBlock) : List ToolUseRec :=
  (processResponse resp).2.2

/-- Lines 165-168: concatenate the `.text` of every element of
`mcp_result.content` that has a `text` attribute, starting from `""`. -/
def concatTexts (cs : List MCPContent) : String :=
  cs.foldl (fun acc c => match c.text with | some t => acc ++ t | none => acc) ""

/-- Tool-execution phase (lines 154-182): for each recorded tool use in
order, call the MCP tool, concatenate the text parts, yield a
`tool_result` event and build a `tool_result` block.  Returns
(events yielded, number of `call_tool` invocations, `Except` of the
`tool_results` blocks); a raised exception keeps the events already
yielded, matching generator semantics. -/
def execTools (ct : String → String → Except String (List MCPContent)) :
    List ToolUseRec → List AgentEvent × Nat × Except String (List ContentBlock)
  | [] => ([], 0, Except.ok [])
  | tu :: rest =>
    match ct tu.name tu.input with
    | Except.error e => ([], 1, Except.error e)
    | Except.ok parts =>
      let rt := concatTexts parts
      let r := execTools ct rest
      (AgentEvent.toolResultEv tu.name rt :: r.1, r.2.1 + 1,
       match r.2.2 with
       | Except.ok blocks => Except.ok (ContentBlock.toolResult tu.id rt :: blocks)
       | Except.error e => Except.error e)

/-- The observable outcome of one run of `_run_agent_loop`:
the events yielded, the final `messages` list, how many model calls
and tool calls were made, the `tools` argument passed to each model
call, and whether an exception escaped the generator. -/
structure RunResult where
  events : List AgentEvent
  messages : List Message
  modelCalls : Nat
  toolCalls : Nat
  callToolsTrace : List (List ClaudeTool)
  outcome : Except String Unit
deriving DecidableEq

/-- `MCPClient._run_agent_loop` (lines 105-193), with the remaining
iteration budget as fuel.  Each iteration: call the model; walk the
response yielding events and building the assistant message; append it;
if no tool uses, stop; otherwise execute the tools in order, append the
`user` message carrying the tool results, and continue. -/
def runLoop (o : Oracle) (tools : List ClaudeTool) : Nat → List Message → RunResult
  | 0, msgs => ⟨[], msgs, 0, 0, [], Except.ok ()⟩
  | fuel + 1, msgs =>
    match o.complete tools msgs with
    | Except.error e => ⟨[], msgs, 1, 0, [tools], Except.error e⟩
    | Except.ok resp =>
      let msgs1 := msgs ++ [Message.mk Role.assistant (assistantContent resp)]
      if (toolUsesOf resp).isEmpty then
        ⟨respEvents resp, msgs1, 1, 0, [tools], Except.ok ()⟩
      else
        match execTools o.callTool (toolUsesOf resp) with
        | (tevs, calls, Except.error e) =>
          ⟨respEvents resp ++ tevs, msgs1, 1, calls, [tools], Except.error e⟩
        | (tevs, calls, Except.ok blocks) =>
          let r := runLoop o tools fuel (msgs1 ++ [Message.mk Role.user blocks])
          ⟨respEvents resp ++ tevs ++ r.events, r.messages, 1 + r.modelCalls,
           calls + r.toolCalls, tools :: r.callToolsTrace, r.outcome⟩

/-- `max_iterations = 10` (line 107). -/
def MAX_ITERATIONS : Nat := 10

/-- `_run_agent_loop` entered with the full iteration budget. -/
def run_agent_loop (o : Oracle) (tools : List ClaudeTool) (msgs : List Message) : RunResult :=
  runLoop o tools MAX_ITERATIONS msgs

/-- The instructional template of the initial user message
(lines 223-267), parameterized by the request text. -/
def promptTemplate (text : String) : String :=
  "You are a research term explainer. Your task is to explain the term: \x27" ++ text ++
  "\x27\n\nFollow these steps in order:\n\nStep 1: Search for relevant papers\n" ++
  "- If you know landmark/seminal papers for this term, search by exact title\n" ++
  "- Search using the original term \x27" ++ text ++ "\x27 as a keyword\n" ++
  "- Search using related technical terms, variations, or more specific keywords\n" ++
  "- Use multiple search queries to gather approximately 20-30 papers total\n" ++
  "- Use max_results parameter appropriately for each search\n\n" ++
  "Step 2: Filter papers based on abstracts\n" ++
  "- Read the abstract of each retrieved paper carefully\n" ++
  "- Select only papers that are directly relevant to explaining \x27" ++ text ++ "\x27\n" ++
  "- Exclude papers that only mention the term tangentially\n" ++
  "- Aim to select the top 10 most relevant papers (or fewer if less than 10 are truly relevant)\n" ++
  "- Prioritize: foundational papers, seminal works, survey papers, and highly-cited research\n\n" ++
  "Step 3: Write the explanation\n" ++
  "- Based on the abstracts and content of the selected papers, write a comprehensive explanation of \x27" ++
  text ++ "\x27\n" ++
  "- Include: definition, key concepts, applications, and significance in the field\n" ++
  "- Reference specific papers when explaining concepts (e.g., \"as introduced in [Paper Title]\")\n" ++
  "- Use proper Markdown format with double line breaks between sections\n\n" ++
  "Step 4: Display the selected papers\n" ++
  "- At the end, show the 10 most relevant papers\n" ++
  "- IMPORTANT: Use the ACTUAL pdf_url from each paper result\n" ++
  "- Format each paper link like this example:\n" ++
  "  - [Attention is All You Need](https://arxiv.org/pdf/1706.03762) - Introduces the Transformer architecture\n" ++
  "- Replace the title and URL with the actual values from the search results\n" ++
  "- Do NOT use placeholder text like \"(arXiv URL)\" - use the real PDF URL returned in the search results\n\n" ++
  "## Related Papers\n\n[List the actual papers here with their real PDF URLs]\n\n" ++
  "Format requirements:\n- Use proper Markdown with clear line breaks\n" ++
  "- Use double line breaks between sections\n" ++
  "- Important: In the explanation text (Step 3), you must insert a newline character (\n) after every sentence (ending in \x27.\x27).\n" ++
  "- Make the explanation evidence-based using the paper abstracts\n" ++
  "- **Always use the actual PDF URLs from the search results, never placeholder text**\n\n" ++
  "Important: Your explanation should be grounded in the actual content of the papers you found, not just general knowledge.\n"

/-- The initial conversation (lines 220-269): one user message whose
content is the instructional template. -/
def initialMessages (text : String) : List Message :=
  [Message.mk Role.user [ContentBlock.text (promptTemplate text)]]

/-- Conversion of MCP tool specs to the Claude API tool format
(lines 211-217). -/
def convertTools (tools : List ToolSpec) : List ClaudeTool :=
  tools.map (fun t => ClaudeTool.mk t.name t.description t.inputSchema)

/-- The observable outcome of one call of
`explain_research_term_streaming`: the frames yielded (one JSON-encoded
event per `data:` frame; we keep the event, the encoding being a
bijection on the events that occur) and the number of model and tool
calls made. -/
structure StreamResult where
  frames : List AgentEvent
  modelCalls : Nat
  toolCalls : Nat
deriving DecidableEq

/-- `MCPClient.explain_research_term_streaming` (lines 195-282):
if the session is not initialized, yield a single error frame and
return; otherwise list the tools, convert them, run the agent loop
forwarding every event, and yield a `done` frame; any exception
raised inside the `try` block is caught and converted into a final
error frame. -/
def explainStreaming (o : Oracle) (session : Option Unit) (text : String) : StreamResult :=
  match session with
  | none => ⟨[AgentEvent.errorEv "MCP server not initialized"], 0, 0⟩
  | some _ =>
    match o.listTools with
    | Except.error e =>
      ⟨[AgentEvent.errorEv ("Error processing request: " ++ e)], 0, 0⟩
    | Except.ok tools =>
      let r := run_agent_loop o (convertTools tools) (initialMessages text)
      match r.outcome with
      | Except.ok _ =>
        ⟨r.events ++ [AgentEvent.doneEv], r.modelCalls, r.toolCalls⟩
      | Except.error e =>
        ⟨r.events ++ [AgentEvent.errorEv ("Error processing request: " ++ e)],
         r.modelCalls, r.toolCalls⟩

/-!
Session lifecycle (`MCPClient.start_mcp_server`, `_run_server`,
`stop_mcp_server`, lines 34-103).  The background `_run_server` task is
modelled by its status; `asyncio` real time is abstracted to the time
unit at which the readiness event would be signalled.
-/

/-- Status of the background `_run_server` task. -/
inductive TaskStatus where
  | running
  | cancelled
  | failed (e : String)
deriving DecidableEq

/-- The mutable fields of `MCPClient` relevant to the lifecycle:
`self.session`, `self.server_task`, `self.session_ready`
(the event, with its set flag). -/
structure MCPClientState where
  session : Option Unit
  serverTask : Option TaskStatus
  sessionReady : Option Bool
deriving DecidableEq

/-- `MCPClient.__init__` (lines 35-39): all lifecycle fields `None`. -/
def initialState : MCPClientState :=
  MCPClientState.mk none none none

/-- `task.cancel()`: a running task becomes cancelled; a task that has
already finished is unaffected. -/
def cancelTask : TaskStatus → TaskStatus
  | TaskStatus.running => TaskStatus.cancelled
  | s => s

/-- The `timeout=10.0` of `asyncio.wait_for` (line 61). -/
def START_TIMEOUT : Nat := 10

/-- `MCPClient.start_mcp_server` (lines 41-67): create the readiness
event, spawn `_run_server`, and wait for readiness with a 10-unit
timeout.  `readyTime` is the time at which the background task would
signal `session_ready` (`none`: never).  On timeout, the task is
cancelled and `RuntimeError("Failed to start MCP server")` is raised.
Returns the state after the call and the call's outcome. -/
def start_mcp_server (readyTime : Option Nat) (s : MCPClientState) :
    MCPClientState × Except String Unit :=
  let s1 := { s with sessionReady := some false, serverTask := some TaskStatus.running }
  match readyTime with
  | some t =>
    if t ≤ START_TIMEOUT then
      ({ s1 with session := some (), sessionReady := some true }, Except.ok ())
    else
      ({ s1 with serverTask := some TaskStatus.cancelled },
       Except.error "Failed to start MCP server")
  | none =>
    ({ s1 with serverTask := some TaskStatus.cancelled },
     Except.error "Failed to start MCP server")

/-- Outcome of `await self.server_task` on a task that is no longer
running: `CancelledError` for a cancelled task, the stored exception
for a failed one. -/
inductive AwaitOutcome where
  | completed
  | cancelledErr
  | exn (e : String)
deriving DecidableEq

/-- `await` on the (already cancelled or finished) server task. -/
def awaitTask : TaskStatus → AwaitOutcome
  | TaskStatus.running => AwaitOutcome.completed
  | TaskStatus.cancelled => AwaitOutcome.cancelledErr
  | TaskStatus.failed e => AwaitOutcome.exn e

/-- `MCPClient.stop_mcp_server` (lines 92-103): if a server task
exists, cancel it and await it, suppressing `asyncio.CancelledError`
and propagating any other exception (in which case the assignments to
`session`/`session_ready` are not reached); then clear `session` and
`session_ready`. -/
def stop_mcp_server (s : MCPClientState) : MCPClientState × Except String Unit :=
  match s.serverTask with
  | none => ({ s with session := none, sessionReady := none }, Except.ok ())
  | some task =>
    let task1 := cancelTask task
    match awaitTask task1 with
    | AwaitOutcome.exn e => ({ s with serverTask := some task1 }, Except.error e)
    | _ =>
      ({ s with serverTask := some task1, session := none, sessionReady := none },
       Except.ok ())

/-- An event that terminates a run's event sequence: `error` or `done`. -/
def isTerminalEv : AgentEvent → Bool
  | AgentEvent.errorEv _ => true
  | AgentEvent.doneEv => true
  | _ => false

/-- Recognizer for `tool_use` events. -/
def isToolUseEv : AgentEvent → Bool
  | AgentEvent.toolUseEv _ _ => true
  | _ => false

/-- The payload of a successful oracle reply (`[]` on error; only used
under a success hypothesis). -/
def okD : Except String (List MCPContent) → List MCPContent
  | Except.ok p => p
  | Except.error _ => []

/-- The `result_text` computed for one tool use: the concatenation of
the text parts of the tool call's result. -/
def callText (ct : String → String → Except String (List MCPContent))
    (tu : ToolUseRec) : String :=
  concatTexts (okD (ct tu.name tu.input))

/-- The texts of the `text` blocks of a response, in order. -/
def textsOf : List RespBlock → List String
  | [] => []
  | RespBlock.text t :: rest => t :: textsOf rest
  | RespBlock.toolUse _ _ _ :: rest => textsOf rest

theorem respEvents_nil : respEvents [] = [] := rfl

theorem respEvents_text (t : String) (rest : List RespBlock) :
    respEvents (RespBlock.text t :: rest) = AgentEvent.textEv t :: respEvents rest := rfl

theorem respEvents_toolUse (i n inp : String) (rest : List RespBlock) :
    respEvents (RespBlock.toolUse i n inp :: rest) =
      AgentEvent.toolUseEv n inp :: respEvents rest := rfl

theorem toolUsesOf_nil : toolUsesOf [] = [] := rfl

theorem toolUsesOf_text (t : String) (rest : List RespBlock) :
    toolUsesOf (RespBlock.text t :: rest) = toolUsesOf rest := rfl

theorem toolUsesOf_toolUse (i n inp : String) (rest : List RespBlock) :
    toolUsesOf (RespBlock.toolUse i n inp :: rest) =
      ToolUseRec.mk i n inp :: toolUsesOf rest := rfl

/-- The `tool_use` events of a response walk are exactly the recorded
tool uses, in the same order. -/
theorem respEvents_filter_toolUse (resp : List RespBlock) :
    (respEvents resp).filter isToolUseEv =
      (toolUsesOf resp).map (fun tu => AgentEvent.toolUseEv tu.name tu.input) := by
  induction resp with
  | nil => rfl
  | cons b rest ih =>
    cases b with
    | text t =>
      rw [respEvents_text, toolUsesOf_text,
        List.filter_cons_of_neg (by simp [isToolUseEv])]
      exact ih
    | toolUse i n inp =>
      rw [respEvents_toolUse, toolUsesOf_toolUse,
        List.filter_cons_of_pos (by simp [isToolUseEv]), List.map_cons, ih]

/-- A response with no `tool_use` blocks yields exactly the text
events of its `text` blocks, in order. -/
theorem respEvents_of_no_toolUse (resp : List RespBlock)
    (hz : toolUsesOf resp = []) :
    respEvents resp = (textsOf resp).map AgentEvent.textEv := by
  induction resp with
  | nil => rfl
  | cons b rest ih =>
    cases b with
    | text t =>
      rw [toolUsesOf_text] at hz
      simp [respEvents_text, textsOf, ih hz]
    | toolUse i n inp =>
      rw [toolUsesOf_toolUse] at hz
      cases hz

/-- No event of a response walk is terminal. -/
theorem respEvents_not_terminal (resp : List RespBlock) :
    ∀ e ∈ respEvents resp, isTerminalEv e = false := by
  induction resp with
  | nil => intro e he; cases he
  | cons b rest ih =>
    cases b with
    | text t =>
      intro e he
      rw [respEvents_text] at he
      rcases List.mem_cons.mp he with h | h
      · rw [h]; rfl
      · exact ih e h
    | toolUse i n inp =>
      intro e he
      rw [respEvents_toolUse] at he
      rcases List.mem_cons.mp he with h | h
      · rw [h]; rfl
      · exact ih e h

/-- When every tool call succeeds, the tool-execution phase yields one
`tool_result` event per recorded tool use (in order, each carrying the
concatenated text of that call's result), makes exactly one MCP call
per tool use, and builds the matching `tool_result` blocks. -/
theorem execTools_ok (ct : String → String → Except String (List MCPContent))
    (tus : List ToolUseRec)
    (hok : ∀ tu ∈ tus, ∃ parts, ct tu.name tu.input = Except.ok parts) :
    execTools ct tus =
      ((tus.map fun tu => AgentEvent.toolResultEv tu.name (callText ct tu)),
       tus.length,
       Except.ok (tus.map fun tu => ContentBlock.toolResult tu.id (callText ct tu))) := by
  induction tus with
  | nil => rfl
  | cons tu rest ih =>
    obtain ⟨parts, hp⟩ := hok tu (List.mem_cons_self tu rest)
    have hrest : ∀ tu' ∈ rest, ∃ parts', ct tu'.name tu'.input = Except.ok parts' :=
      fun tu' h => hok tu' (List.mem_cons_of_mem tu h)
    have hct : callText ct tu = concatTexts parts := by
      rw [callText, hp]; rfl
    simp [execTools, hp, ih hrest, hct]

/-- No event of the tool-execution phase is terminal (they are all
`tool_result` events). -/
theorem execTools_not_terminal (ct : String → String → Except String (List MCPContent))
    (tus : List ToolUseRec) :
    ∀ e ∈ (execTools ct tus).1, isTerminalEv e = false := by
  induction tus with
  | nil => intro e he; cases he
  | cons tu rest ih =>
    intro e he
    rw [execTools] at he
    cases hc : ct tu.name tu.input with
    | error err => rw [hc] at he; cases he
    | ok parts =>
      rw [hc] at he
      simp only at he
      rcases List.mem_cons.mp he with h | h
      · rw [h]; rfl
      · exact ih e h

theorem runLoop_zero (o : Oracle) (tools : List ClaudeTool) (msgs : List Message) :
    runLoop o tools 0 msgs = ⟨[], msgs, 0, 0, [], Except.ok ()⟩ := rfl

/-- One iteration in which the model call raises: no events, no change
to the conversation, the exception escapes. -/
theorem runLoop_succ_model_error (o : Oracle) (tools : List ClaudeTool)
    (fuel : Nat) (msgs : List Message) (e : String)
    (hm : o.complete tools msgs = Except.error e) :
    runLoop o tools (fuel + 1) msgs = ⟨[], msgs, 1, 0, [tools], Except.error e⟩ := by
  simp [runLoop, hm]

/-- One iteration in which the model requests no tools: the loop
breaks after appending the assistant message; only the walk events are
yielded and no tool call is made. -/
theorem runLoop_succ_no_tools (o : Oracle) (tools : List ClaudeTool)
    (fuel : Nat) (msgs : List Message) (resp : List RespBlock)
    (hm : o.complete tools msgs = Except.ok resp)
    (hz : toolUsesOf resp = []) :
    runLoop o tools (fuel + 1) msgs =
      ⟨respEvents resp, msgs ++ [Message.mk Role.assistant (assistantContent resp)],
       1, 0, [tools], Except.ok ()⟩ := by
  simp [runLoop, hm, hz]

/-- One iteration in which the model requests tools and every tool
call succeeds: the walk events are followed by one `tool_result` event
per tool use, the conversation gains the assistant message and the
user message carrying the results, and the loop continues with one
less unit of fuel. -/
theorem runLoop_succ_tools (o : Oracle) (tools : List ClaudeTool)
    (fuel : Nat) (msgs : List Message) (resp : List RespBlock)
    (hm : o.complete tools msgs = Except.ok resp)
    (hne : toolUsesOf resp ≠ [])
    (hok : ∀ tu ∈ toolUsesOf resp, ∃ parts, o.callTool tu.name tu.input = Except.ok parts) :
    runLoop o tools (fuel + 1) msgs =
      (fun r => RunResult.mk
        (respEvents resp ++
          ((toolUsesOf resp).map fun tu =>
            AgentEvent.toolResultEv tu.name (callText o.callTool tu)) ++ r.events)
        r.messages (1 + r.modelCalls) ((toolUsesOf resp).length + r.toolCalls)
        (tools :: r.callToolsTrace) r.outcome)
      (runLoop o tools fuel
        (msgs ++ [Message.mk Role.assistant (assistantContent resp),
          Message.mk Role.user ((toolUsesOf resp).map fun tu =>
            ContentBlock.toolResult tu.id (callText o.callTool tu))])) := by
  have hemp : (toolUsesOf resp).isEmpty = false := by
    cases h : toolUsesOf resp
    · exact absurd h hne
    · rfl
  simp [runLoop, hm, hemp, execTools_ok o.callTool (toolUsesOf resp) hok]

/-- The loop itself never yields an `error` or `done` event: those are
produced only by the adapter. -/
theorem runLoop_events_not_terminal (o : Oracle) (tools : List ClaudeTool) :
    ∀ (fuel : Nat) (msgs : List Message),
      ∀ e ∈ (runLoop o tools fuel msgs).events, isTerminalEv e = false := by
  intro fuel
  induction fuel with
  | zero => intro msgs e he; cases he
  | succ fuel ih =>
    intro msgs e he
    cases hm : o.complete tools msgs with
    | error err =>
      rw [runLoop_succ_model_error o tools fuel msgs err hm] at he
      cases he
    | ok resp =>
      by_cases hz : toolUsesOf resp = []
      · rw [runLoop_succ_no_tools o tools fuel msgs resp hm hz] at he
        exact respEvents_not_terminal resp e he
      · have hemp : (toolUsesOf resp).isEmpty = false := by
          cases h : toolUsesOf resp
          · exact absurd h hz
          · rfl
        rcases hET : execTools o.callTool (toolUsesOf resp) with ⟨tevs, calls, res⟩
        have htevs : tevs = (execTools o.callTool (toolUsesOf resp)).1 := by rw [hET]
        cases res with
        | error err =>
          rw [show runLoop o tools (fuel + 1) msgs =
              ⟨respEvents resp ++ tevs,
               msgs ++ [Message.mk Role.assistant (assistantContent resp)],
               1, calls, [tools], Except.error err⟩ by
            simp [runLoop, hm, hemp, hET]] at he
          rcases List.mem_append.mp he with h | h
          · exact respEvents_not_terminal resp e h
          · exact execTools_not_terminal o.callTool (toolUsesOf resp) e (htevs ▸ h)
        | ok blocks =>
          rw [show runLoop o tools (fuel + 1) msgs =
              (fun r => RunResult.mk (respEvents resp ++ tevs ++ r.events) r.messages
                (1 + r.modelCalls) (calls + r.toolCalls)
                (tools :: r.callToolsTrace) r.outcome)
              (runLoop o tools fuel
                (msgs ++ [Message.mk Role.assistant (assistantContent resp)] ++
                  [Message.mk Role.user blocks])) by
            simp [runLoop, hm, hemp, hET]] at he
          simp only [List.append_assoc, List.mem_append] at he
          rcases he with h | h | h
          · exact respEvents_not_terminal resp e h
          · exact execTools_not_terminal o.callTool (toolUsesOf resp) e (htevs ▸ h)
          · exact ih _ e h

/-- The number of model calls is bounded by the fuel. -/
theorem runLoop_modelCalls_le (o : Oracle) (tools : List ClaudeTool) :
    ∀ (fuel : Nat) (msgs : List Message),
      (runLoop o tools fuel msgs).modelCalls ≤ fuel := by
  intro fuel
  induction fuel with
  | zero => intro msgs; exact Nat.le_refl 0
  | succ fuel ih =>
    intro msgs
    cases hm : o.complete tools msgs with
    | error err =>
      rw [runLoop_succ_model_error o tools fuel msgs err hm]
      exact Nat.succ_le_succ (Nat.zero_le fuel)
    | ok resp =>
      by_cases hz : toolUsesOf resp = []
      · rw [runLoop_succ_no_tools o tools fuel msgs resp hm hz]
        exact Nat.succ_le_succ (Nat.zero_le fuel)
      · have hemp : (toolUsesOf resp).isEmpty = false := by
          cases h : toolUsesOf resp
          · exact absurd h hz
          · rfl
        rcases hET : execTools o.callTool (toolUsesOf resp) with ⟨tevs, calls, res⟩
        cases res with
        | error err =>
          have : runLoop o tools (fuel + 1) msgs =
              ⟨respEvents resp ++ tevs,
               msgs ++ [Message.mk Role.assistant (assistantContent resp)],
               1, calls, [tools], Except.error err⟩ := by
            simp [runLoop, hm, hemp, hET]
          rw [this]
          exact Nat.succ_le_succ (Nat.zero_le fuel)
        | ok blocks =>
          have : (runLoop o tools (fuel + 1) msgs).modelCalls =
              1 + (runLoop o tools fuel
                (msgs ++ [Message.mk Role.assistant (assistantContent resp)] ++
                  [Message.mk Role.user blocks])).modelCalls := by
            simp [runLoop, hm, hemp, hET]
          rw [this, Nat.add_comm]
          exact Nat.succ_le_succ (ih _)

/-- With at least one unit of fuel, at least one model call is made. -/
theorem runLoop_modelCalls_pos (o : Oracle) (tools : List ClaudeTool)
    (fuel : Nat) (msgs : List Message) :
    1 ≤ (runLoop o tools (fuel + 1) msgs).modelCalls := by
  cases hm : o.complete tools msgs with
  | error err =>
    rw [runLoop_succ_model_error o tools fuel msgs err hm]
  | ok resp =>
    by_cases hz : toolUsesOf resp = []
    · rw [runLoop_succ_no_tools o tools fuel msgs resp hm hz]
    · have hemp : (toolUsesOf resp).isEmpty = false := by
        cases h : toolUsesOf resp
        · exact absurd h hz
        · rfl
      rcases hET : execTools o.callTool (toolUsesOf resp) with ⟨tevs, calls, res⟩
      cases res with
      | error err =>
        have : (runLoop o tools (fuel + 1) msgs).modelCalls = 1 := by
          simp [runLoop, hm, hemp, hET]
        rw [this]
      | ok blocks =>
        have : (runLoop o tools (fuel + 1) msgs).modelCalls =
            1 + (runLoop o tools fuel
              (msgs ++ [Message.mk Role.assistant (assistantContent resp)] ++
                [Message.mk Role.user blocks])).modelCalls := by
          simp [runLoop, hm, hemp, hET]
        rw [this]
        exact Nat.le_add_right 1 _

/-- Every model call of a run receives the same `tools` argument the
loop was entered with. -/
theorem runLoop_callTools_const (o : Oracle) (tools : List ClaudeTool) :
    ∀ (fuel : Nat) (msgs : List Message),
      ∀ c ∈ (runLoop o tools fuel msgs).callToolsTrace, c = tools := by
  intro fuel
  induction fuel with
  | zero => intro msgs c hc; cases hc
  | succ fuel ih =>
    intro msgs c hc
    cases hm : o.complete tools msgs with
    | error err =>
      rw [runLoop_succ_model_error o tools fuel msgs err hm] at hc
      rcases List.mem_singleton.mp hc with h
      exact h
    | ok resp =>
      by_cases hz : toolUsesOf resp = []
      · rw [runLoop_succ_no_tools o tools fuel msgs resp hm hz] at hc
        exact List.mem_singleton.mp hc
      · have hemp : (toolUsesOf resp).isEmpty = false := by
          cases h : toolUsesOf resp
          · exact absurd h hz
          · rfl
        rcases hET : execTools o.callTool (toolUsesOf resp) with ⟨tevs, calls, res⟩
        cases res with
        | error err =>
          have : runLoop o tools (fuel + 1) msgs =
              ⟨respEvents resp ++ tevs,
               msgs ++ [Message.mk Role.assistant (assistantContent resp)],
               1, calls, [tools], Except.error err⟩ := by
            simp [runLoop, hm, hemp, hET]
          rw [this] at hc
          exact List.mem_singleton.mp hc
        | ok blocks =>
          have : (runLoop o tools (fuel + 1) msgs).callToolsTrace =
              tools :: (runLoop o tools fuel
                (msgs ++ [Message.mk Role.assistant (assistantContent resp)] ++
                  [Message.mk Role.user blocks])).callToolsTrace := by
            simp [runLoop, hm, hemp, hET]
          rw [this] at hc
          rcases List.mem_cons.mp hc with h | h
          · exact h
          · exact ih _ c h

/-- A result whose parts carry no text concatenates to the empty
string. -/
theorem concatTexts_of_no_text (parts : List MCPContent)
    (h : ∀ p ∈ parts, p.text = none) : concatTexts parts = "" := by
  suffices H : ∀ ps : List MCPContent, (∀ p ∈ ps, p.text = none) →
      ∀ acc : String,
        ps.foldl (fun acc c => match c.text with | some t => acc ++ t | none => acc) acc
          = acc by
    exact H parts h ""
  intro ps
  induction ps with
  | nil => intro _ acc; rfl
  | cons p rest ih =>
    intro hps acc
    have hp : p.text = none := hps p (List.mem_cons_self p rest)
    have hrest : ∀ q ∈ rest, q.text = none :=
      fun q hq => hps q (List.mem_cons_of_mem p hq)
    rw [List.foldl_cons,
      show (match p.text with | some t => acc ++ t | none => acc) = acc by rw [hp]]
    exact ih hrest acc

/-!  Demonstration oracles used by the concrete witnesses.  -/

/-- A model that issues two tool uses in its first response and then
answers with text; the tool provider echoes the query. -/
def twoToolOracle : Oracle where
  complete := fun _ msgs =>
    if msgs.length ≤ 1 then
      Except.ok [RespBlock.text "searching",
        RespBlock.toolUse "id1" "search_papers" "q1",
        RespBlock.toolUse "id2" "search_papers" "q2"]
    else
      Except.ok [RespBlock.text "answer"]
  callTool := fun _ q => Except.ok [MCPContent.mk (some ("res-" ++ q))]
  listTools := Except.ok [ToolSpec.mk "search_papers" "search arXiv" "schema"]

/-- A model that answers with text immediately. -/
def textOracle : Oracle where
  complete := fun _ _ => Except.ok [RespBlock.text "hello", RespBlock.text "world"]
  callTool := fun _ _ => Except.error "no tool expected"
  listTools := Except.ok [ToolSpec.mk "search_papers" "d" "s"]

/-- A model that requests a tool on every response, forever. -/
def persistentOracle : Oracle where
  complete := fun _ _ =>
    Except.ok [RespBlock.toolUse "id1" "search_papers" "transformer"]
  callTool := fun _ _ => Except.ok [MCPContent.mk (some "results")]
  listTools := Except.ok [ToolSpec.mk "search_papers" "search arXiv" "schema"]

/-- A model whose call raises. -/
def failingOracle : Oracle where
  complete := fun _ _ => Except.error "model down"
  callTool := fun _ _ => Except.error "unused"
  listTools := Except.ok []

/-- A model that requests one tool whose result has a single part with
no text attribute, then answers. -/
def emptyResultOracle : Oracle where
  complete := fun _ msgs =>
    if msgs.length ≤ 1 then
      Except.ok [RespBlock.toolUse "id1" "search_papers" "q"]
    else
      Except.ok [RespBlock.text "final"]
  callTool := fun _ _ => Except.ok [MCPContent.mk none]
  listTools := Except.ok [ToolSpec.mk "search_papers" "search arXiv" "schema"]

/-- C1: in an iteration whose model response contains N tool-use
blocks (and whose tool calls succeed), the loop emits exactly N
`tool_result` events, in the same order as the `tool_use` events (both
follow the order of the recorded tool uses), and the conversation
gains exactly one assistant message and one user message before the
next iteration. -/
theorem tool_results_match_tool_uses (o : Oracle) (tools : List ClaudeTool)
    (fuel : Nat) (msgs : List Message) (resp : List RespBlock)
    (hm : o.complete tools msgs = Except.ok resp)
    (hne : toolUsesOf resp ≠ [])
    (hok : ∀ tu ∈ toolUsesOf resp, ∃ parts, o.callTool tu.name tu.input = Except.ok parts) :
    ((execTools o.callTool (toolUsesOf resp)).1 =
        (toolUsesOf resp).map fun tu =>
          AgentEvent.toolResultEv tu.name (callText o.callTool tu))
    ∧ ((execTools o.callTool (toolUsesOf resp)).1.length = (toolUsesOf resp).length)
    ∧ ((respEvents resp).filter isToolUseEv =
        (toolUsesOf resp).map fun tu => AgentEvent.toolUseEv tu.name tu.input)
    ∧ (runLoop o tools (fuel + 1) msgs =
        (fun r => RunResult.mk
          (respEvents resp ++
            ((toolUsesOf resp).map fun tu =>
              AgentEvent.toolResultEv tu.name (callText o.callTool tu)) ++ r.events)
          r.messages (1 + r.modelCalls) ((toolUsesOf resp).length + r.toolCalls)
          (tools :: r.callToolsTrace) r.outcome)
        (runLoop o tools fuel
          (msgs ++ [Message.mk Role.assistant (assistantContent resp),
            Message.mk Role.user ((toolUsesOf resp).map fun tu =>
              ContentBlock.toolResult tu.id (callText o.callTool tu))]))) := by
  refine ⟨?_, ?_, respEvents_filter_toolUse resp,
    runLoop_succ_tools o tools fuel msgs resp hm hne hok⟩
  · rw [execTools_ok o.callTool (toolUsesOf resp) hok]
  · rw [execTools_ok o.callTool (toolUsesOf resp) hok]
    exact List.length_map _ _

/-- C1 witness: the two-tool oracle on the initial conversation. -/
theorem tool_results_match_tool_uses_witness :
    (execTools twoToolOracle.callTool
        (toolUsesOf [RespBlock.text "searching",
          RespBlock.toolUse "id1" "search_papers" "q1",
          RespBlock.toolUse "id2" "search_papers" "q2"])).1.length =
      (toolUsesOf [RespBlock.text "searching",
        RespBlock.toolUse "id1" "search_papers" "q1",
        RespBlock.toolUse "id2" "search_papers" "q2"]).length :=
  (tool_results_match_tool_uses twoToolOracle [] 9 (initialMessages "transformer")
    [RespBlock.text "searching",
      RespBlock.toolUse "id1" "search_papers" "q1",
      RespBlock.toolUse "id2" "search_papers" "q2"]
    rfl (by decide)
    (fun tu _ => ⟨[MCPContent.mk (some ("res-" ++ tu.input))], rfl⟩)).2.1

/-- C2: the loop makes at most `MAX_ITERATIONS = 10` model calls
(one per iteration started), however persistently the model requests
tools. -/
theorem iteration_bound (o : Oracle) (tools : List ClaudeTool) (msgs : List Message) :
    (run_agent_loop o tools msgs).modelCalls ≤ 10 :=
  runLoop_modelCalls_le o tools MAX_ITERATIONS msgs

/-- C3 counterexample: with a model that requests a tool on every
response, the run reaches the 10-iteration bound (10 model calls, the
no-tool-use exit never taken), yet the stream does NOT end abruptly:
its last frame is the `done` marker, because the adapter yields `done`
unconditionally once the loop generator is exhausted. -/
theorem iteration_bound_stream_cex :
    (explainStreaming persistentOracle (some ()) "transformer").modelCalls = 10
    ∧ (explainStreaming persistentOracle (some ()) "transformer").frames.getLast? =
        some AgentEvent.doneEv := by
  constructor
  · rfl
  · rfl

/-- C3 amended: when the loop exits (in particular when it exhausts
its 10-iteration budget) without an exception, no `ErrorEvent` is
emitted — the loop's own events are never `error`/`done` — but the
stream does not end abruptly: the adapter appends exactly one `done`
frame after the events already produced. -/
theorem iteration_bound_stream (o : Oracle) (text : String) (specs : List ToolSpec)
    (hl : o.listTools = Except.ok specs)
    (hout : (run_agent_loop o (convertTools specs) (initialMessages text)).outcome =
      Except.ok ()) :
    ((explainStreaming o (some ()) text).frames =
      (run_agent_loop o (convertTools specs) (initialMessages text)).events ++
        [AgentEvent.doneEv])
    ∧ ∀ e ∈ (run_agent_loop o (convertTools specs) (initialMessages text)).events,
        isTerminalEv e = false := by
  constructor
  · simp [explainStreaming, hl, hout]
  · exact runLoop_events_not_terminal o (convertTools specs) MAX_ITERATIONS
      (initialMessages text)

/-- C3 witness: the persistent oracle exhausts the budget and the
stream is the loop's events followed by `done`. -/
theorem iteration_bound_stream_witness :
    (explainStreaming persistentOracle (some ()) "transformer").frames =
      (run_agent_loop persistentOracle
        (convertTools [ToolSpec.mk "search_papers" "search arXiv" "schema"])
        (initialMessages "transformer")).events ++ [AgentEvent.doneEv] :=
  (iteration_bound_stream persistentOracle "transformer"
    [ToolSpec.mk "search_papers" "search arXiv" "schema"] rfl rfl).1

/-- C4: if the first model response contains no tool-use blocks, the
run emits exactly the text events of that response, in order, makes
one model call and zero tool calls, appends only the assistant
message, and terminates normally; a response with zero content blocks
yields zero events. -/
theorem no_tool_use_run (o : Oracle) (tools : List ClaudeTool) (msgs : List Message)
    (resp : List RespBlock)
    (hm : o.complete tools msgs = Except.ok resp)
    (hz : toolUsesOf resp = []) :
    (run_agent_loop o tools msgs =
      ⟨(textsOf resp).map AgentEvent.textEv,
       msgs ++ [Message.mk Role.assistant (assistantContent resp)],
       1, 0, [tools], Except.ok ()⟩)
    ∧ (resp = [] → (run_agent_loop o tools msgs).events = []) := by
  have h10 : run_agent_loop o tools msgs = runLoop o tools (9 + 1) msgs := rfl
  have hmain : run_agent_loop o tools msgs =
      ⟨(textsOf resp).map AgentEvent.textEv,
       msgs ++ [Message.mk Role.assistant (assistantContent resp)],
       1, 0, [tools], Except.ok ()⟩ := by
    rw [h10, runLoop_succ_no_tools o tools 9 msgs resp hm hz,
      respEvents_of_no_toolUse resp hz]
  refine ⟨hmain, fun hnil => ?_⟩
  rw [hmain, hnil]
  rfl

/-- C4 witness: a text-only response. -/
theorem no_tool_use_run_witness :
    run_agent_loop textOracle [] [] =
      ⟨[AgentEvent.textEv "hello", AgentEvent.textEv "world"],
       [Message.mk Role.assistant [ContentBlock.text "hello", ContentBlock.text "world"]],
       1, 0, [[]], Except.ok ()⟩ :=
  ((no_tool_use_run textOracle [] []
    [RespBlock.text "hello", RespBlock.text "world"] rfl rfl).1).trans rfl

/-- C5: for every executed tool call the emitted `tool_result` event
and the `tool_result` block appended to the conversation both carry
the concatenation, in order, of the text parts of the provider's
result; a result with no text parts concatenates to `""`; and after a
tool-using first response the loop still proceeds to a next iteration
(a second model call is made). -/
theorem tool_result_content_concat (o : Oracle) (tools : List ClaudeTool)
    (msgs : List Message) (resp : List RespBlock) (parts : List MCPContent)
    (tu0 : ToolUseRec)
    (hm : o.complete tools msgs = Except.ok resp)
    (hne : toolUsesOf resp ≠ [])
    (hok : ∀ tu ∈ toolUsesOf resp, ∃ ps, o.callTool tu.name tu.input = Except.ok ps)
    (hparts : ∀ p ∈ parts, p.text = none) :
    (execTools o.callTool (toolUsesOf resp) =
      ((toolUsesOf resp).map (fun tu =>
          AgentEvent.toolResultEv tu.name (callText o.callTool tu)),
       (toolUsesOf resp).length,
       Except.ok ((toolUsesOf resp).map fun tu =>
          ContentBlock.toolResult tu.id (callText o.callTool tu))))
    ∧ concatTexts parts = ""
    ∧ (o.callTool tu0.name tu0.input = Except.ok parts → callText o.callTool tu0 = "")
    ∧ 2 ≤ (run_agent_loop o tools msgs).modelCalls := by
  refine ⟨execTools_ok o.callTool (toolUsesOf resp) hok,
    concatTexts_of_no_text parts hparts, fun hc => ?_, ?_⟩
  · rw [callText, hc]
    exact concatTexts_of_no_text parts hparts
  · have h10 : run_agent_loop o tools msgs = runLoop o tools (9 + 1) msgs := rfl
    rw [h10, runLoop_succ_tools o tools 9 msgs resp hm hne hok]
    have := runLoop_modelCalls_pos o tools 8
      (msgs ++ [Message.mk Role.assistant (assistantContent resp),
        Message.mk Role.user ((toolUsesOf resp).map fun tu =>
          ContentBlock.toolResult tu.id (callText o.callTool tu))])
    exact Nat.add_le_add_left this 1

/-- C5 witness: a tool result with one text-free part gives content
`""` and the loop makes a second model call. -/
theorem tool_result_content_concat_witness :
    (concatTexts [MCPContent.mk none] = "")
    ∧ 2 ≤ (run_agent_loop emptyResultOracle [] (initialMessages "t")).modelCalls :=
  ⟨(tool_result_content_concat emptyResultOracle [] (initialMessages "t")
      [RespBlock.toolUse "id1" "search_papers" "q"] [MCPContent.mk none]
      (ToolUseRec.mk "id1" "search_papers" "q") rfl (by decide)
      (fun tu _ => ⟨[MCPContent.mk none], rfl⟩) (by decide)).2.1,
   (tool_result_content_concat emptyResultOracle [] (initialMessages "t")
      [RespBlock.toolUse "id1" "search_papers" "q"] [MCPContent.mk none]
      (ToolUseRec.mk "id1" "search_papers" "q") rfl (by decide)
      (fun tu _ => ⟨[MCPContent.mk none], rfl⟩) (by decide)).2.2.2⟩

/-- C6: every stream ends with exactly one terminal frame (`done` or
`error`) and no frame follows it; in particular, when an exception
escapes the agent loop the adapter catches it and ends the stream with
a single `error` frame carrying the diagnostic text, after the events
already produced. -/
theorem stream_single_terminal (o : Oracle) (session : Option Unit) (text : String) :
    (∃ es t, (explainStreaming o session text).frames = es ++ [t]
      ∧ isTerminalEv t = true
      ∧ ∀ e ∈ es, isTerminalEv e = false)
    ∧ (∀ (specs : List ToolSpec) (e : String),
        o.listTools = Except.ok specs →
        (run_agent_loop o (convertTools specs) (initialMessages text)).outcome =
          Except.error e →
        (explainStreaming o (some ()) text).frames =
          (run_agent_loop o (convertTools specs) (initialMessages text)).events ++
            [AgentEvent.errorEv ("Error processing request: " ++ e)]) := by
  constructor
  · cases session with
    | none =>
      exact ⟨[], AgentEvent.errorEv "MCP server not initialized", rfl, rfl,
        fun e he => absurd he (List.not_mem_nil e)⟩
    | some u =>
      cases u
      cases hl : o.listTools with
      | error e =>
        refine ⟨[], AgentEvent.errorEv ("Error processing request: " ++ e), ?_, rfl,
          fun e' he => absurd he (List.not_mem_nil e')⟩
        simp [explainStreaming, hl]
      | ok specs =>
        cases hout : (run_agent_loop o (convertTools specs) (initialMessages text)).outcome with
        | ok u' =>
          cases u'
          refine ⟨(run_agent_loop o (convertTools specs) (initialMessages text)).events,
            AgentEvent.doneEv, ?_, rfl, ?_⟩
          · simp [explainStreaming, hl, hout]
          · exact runLoop_events_not_terminal o (convertTools specs) MAX_ITERATIONS
              (initialMessages text)
        | error e =>
          refine ⟨(run_agent_loop o (convertTools specs) (initialMessages text)).events,
            AgentEvent.errorEv ("Error processing request: " ++ e), ?_, rfl, ?_⟩
          · simp [explainStreaming, hl, hout]
          · exact runLoop_events_not_terminal o (convertTools specs) MAX_ITERATIONS
              (initialMessages text)
  · intro specs e hl hout
    simp [explainStreaming, hl, hout]

/-- C6 witness: a failing model call turns into one final error frame. -/
theorem stream_single_terminal_witness :
    (explainStreaming failingOracle (some ()) "x").frames =
      (run_agent_loop failingOracle (convertTools []) (initialMessages "x")).events ++
        [AgentEvent.errorEv ("Error processing request: " ++ "model down")] :=
  (stream_single_terminal failingOracle (some ()) "x").2 [] "model down" rfl rfl

/-- C7: a request arriving while the session is not initialized yields
exactly one error frame, and no model or tool call is made (the loop
is never entered). -/
theorem not_ready_single_error_frame (o : Oracle) (text : String) :
    explainStreaming o none text =
      StreamResult.mk [AgentEvent.errorEv "MCP server not initialized"] 0 0 := rfl

/-- C8: converting MCP tool specs to the Claude format preserves
`name` and `input_schema` exactly, and every model call of a run
receives that converted declaration list unchanged. -/
theorem toolspec_round_trip (specs : List ToolSpec) (o : Oracle) (msgs : List Message) :
    ((convertTools specs).map ClaudeTool.name = specs.map ToolSpec.name)
    ∧ ((convertTools specs).map ClaudeTool.input_schema = specs.map ToolSpec.inputSchema)
    ∧ ((convertTools specs).length = specs.length)
    ∧ (∀ c ∈ (run_agent_loop o (convertTools specs) msgs).callToolsTrace,
        c = convertTools specs) := by
  refine ⟨?_, ?_, ?_, ?_⟩
  · simp [convertTools]
  · simp [convertTools]
  · simp [convertTools]
  · exact runLoop_callTools_const o (convertTools specs) MAX_ITERATIONS msgs

/-- C8 witness: the converted spec list is what the model call
received. -/
theorem toolspec_round_trip_witness :
    [ClaudeTool.mk "search_papers" "d" "s"] =
      convertTools [ToolSpec.mk "search_papers" "d" "s"] :=
  (toolspec_round_trip [ToolSpec.mk "search_papers" "d" "s"] textOracle []).2.2.2
    [ClaudeTool.mk "search_papers" "d" "s"] (by decide)

/-- After a `stop_mcp_server` call that completes normally, the
`session` and `session_ready` fields are cleared. -/
theorem stop_ok_fields (s : MCPClientState)
    (h : (stop_mcp_server s).2 = Except.ok ()) :
    (stop_mcp_server s).1.session = none ∧ (stop_mcp_server s).1.sessionReady = none := by
  rcases s with ⟨ses, task, ready⟩
  cases task with
  | none => exact ⟨rfl, rfl⟩
  | some st =>
    cases st with
    | running => exact ⟨rfl, rfl⟩
    | cancelled => exact ⟨rfl, rfl⟩
    | failed e => simp [stop_mcp_server, cancelTask, awaitTask] at h

/-- C9: `start_mcp_server` fails with the startup error exactly when
readiness is not signalled within the 10-unit timeout, cancelling the
background task on failure; `stop_mcp_server` clears the provider
state when it completes, is idempotent, succeeds after any start
(including a failed one) by suppressing the expected cancellation, and
propagates a non-cancellation failure of the server task. -/
theorem session_lifecycle (s : MCPClientState) (rt : Option Nat) (e : String) :
    ((start_mcp_server rt s).2 = Except.error "Failed to start MCP server" ↔
      ∀ t, rt = some t → ¬ t ≤ START_TIMEOUT)
    ∧ ((start_mcp_server rt s).2 ≠ Except.ok () →
        (start_mcp_server rt s).1.serverTask = some TaskStatus.cancelled)
    ∧ ((stop_mcp_server s).2 = Except.ok () →
        (stop_mcp_server s).1.session = none ∧ (stop_mcp_server s).1.sessionReady = none)
    ∧ stop_mcp_server (stop_mcp_server s).1 = stop_mcp_server s
    ∧ ((stop_mcp_server (start_mcp_server rt s).1).2 = Except.ok ())
    ∧ (s.serverTask = some (TaskStatus.failed e) →
        (stop_mcp_server s).2 = Except.error e) := by
  refine ⟨?_, ?_, stop_ok_fields s, ?_, ?_, ?_⟩
  · cases rt with
    | none => simp [start_mcp_server]
    | some t =>
      by_cases ht : t ≤ START_TIMEOUT
      · simp [start_mcp_server, ht]
      · simp [start_mcp_server, ht]
        omega
  · cases rt with
    | none => intro _; rfl
    | some t =>
      by_cases ht : t ≤ START_TIMEOUT
      · intro h
        exact absurd (show (start_mcp_server (some t) s).2 = Except.ok () by
          simp [start_mcp_server, ht]) h
      · intro _
        simp [start_mcp_server, ht]
  · rcases s with ⟨ses, task, ready⟩
    cases task with
    | none => rfl
    | some st => cases st <;> rfl
  · cases rt with
    | none => rfl
    | some t =>
      by_cases ht : t ≤ START_TIMEOUT
      · simp [start_mcp_server, stop_mcp_server, ht, cancelTask, awaitTask]
      · simp [start_mcp_server, stop_mcp_server, ht, cancelTask, awaitTask]
  · intro h
    simp [stop_mcp_server, h, cancelTask, awaitTask]

/-- C9 witness: a server task that died with its own exception makes
`stop_mcp_server` propagate it. -/
theorem session_lifecycle_witness :
    (stop_mcp_server
      (MCPClientState.mk (some ()) (some (TaskStatus.failed "boom")) (some true))).2 =
      Except.error "boom" :=
  (session_lifecycle
    (MCPClientState.mk (some ()) (some (TaskStatus.failed "boom")) (some true))
    none "boom").2.2.2.2.2 rfl

/-- C10: teardown (and the state before a successful startup) leaves
`session = none`, so every later streaming request takes the not-ready
path: one error frame, no model call, no tool call. -/
theorem teardown_not_ready (s : MCPClientState) (o : Oracle) (text : String) :
    ((stop_mcp_server s).2 = Except.ok () →
      ((stop_mcp_server s).1.session = none ∧
        explainStreaming o (stop_mcp_server s).1.session text =
          StreamResult.mk [AgentEvent.errorEv "MCP server not initialized"] 0 0))
    ∧ (initialState.session = none ∧
        explainStreaming o initialState.session text =
          StreamResult.mk [AgentEvent.errorEv "MCP server not initialized"] 0 0) := by
  constructor
  · intro h
    have hs := (stop_ok_fields s h).1
    refine ⟨hs, ?_⟩
    rw [hs]
    rfl
  · exact ⟨rfl, rfl⟩

/-- C10 witness: stopping a live client routes the next request to the
not-ready error frame. -/
theorem teardown_not_ready_witness :
    ((stop_mcp_server
        (MCPClientState.mk (some ()) (some TaskStatus.running) (some true))).1.session =
      none)
    ∧ explainStreaming failingOracle
        (stop_mcp_server
          (MCPClientState.mk (some ()) (some TaskStatus.running) (some true))).1.session
        "x" =
      StreamResult.mk [AgentEvent.errorEv "MCP server not initialized"] 0 0 :=
  (teardown_not_ready
    (MCPClientState.mk (some ()) (some TaskStatus.running) (some true))
    failingOracle "x").1 rfl

end ArxivExplainer
